import Mathlib

/-!
Verification development for the video-composition service.

The definitions below are a shallow embedding of the Python sources:
`models/api.py` (enumerations and request schemas), `services/video_service.py`
(`VideoCompositionService`: transition compositor and render pipeline),
`services/job_service.py` (`JobService`: persistence operations on jobs) and
`api/endpoints/jobs.py` (job submission and processing endpoints).

Clips are modelled as an abstract syntax tree recording how the moviepy
combinators were applied, together with a duration semantics mirroring
moviepy's duration rules (concatenation adds durations, fades preserve them,
a composite's duration is the maximum end time of its parts, `set_duration`
overrides).  The database is modelled as a list of job records and time as a
natural-number parameter supplied by the caller.
-/

namespace VideoComp

/-- `models/api.py`: `JobStatus` enumeration. -/
inductive JobStatus where
  | PENDING
  | QUEUED
  | PROCESSING
  | COMPLETED
  | FAILED
  | CANCELLED
deriving DecidableEq, Repr

/-- `models/api.py`: `JobPriority` enumeration. -/
inductive JobPriority where
  | NORMAL
  | HIGH
  | URGENT
deriving DecidableEq, Repr

/-- `models/api.py`: `TransitionType` enumeration. -/
inductive TransitionType where
  | FADE
  | CROSSFADE
  | SLIDE_LEFT
  | SLIDE_RIGHT
  | SLIDE_UP
  | SLIDE_DOWN
  | ZOOM_IN
  | ZOOM_OUT
  | NONE
deriving DecidableEq, Repr

/-- Abstract clip values: a scene clip produced by `create_clip_from_scene`
(identified by its scene index, carrying its duration), and the moviepy
combinators used by `apply_transition` in `services/video_service.py`. -/
inductive Clip where
  | scene (idx : ℕ) (dur : ℚ)
  | concatC (a b : Clip)
  | fadeout (a : Clip) (d : ℚ)
  | fadein (a : Clip) (d : ℚ)
  | compositeAt (a b : Clip) (startB : ℚ)
  | setDuration (a : Clip) (d : ℚ)
deriving DecidableEq, Repr

/-- moviepy duration semantics of the combinators used in
`services/video_service.py`: concatenation adds durations, `fadeout`/`fadein`
keep them, `CompositeVideoClip` of `a` (starting at 0) and `b` (starting at
`startB`) ends at the larger end time, and `set_duration` overrides. -/
def Clip.duration : Clip → ℚ
  | .scene _ d => d
  | .concatC a b => a.duration + b.duration
  | .fadeout a _ => a.duration
  | .fadein a _ => a.duration
  | .compositeAt a b s => max a.duration (s + b.duration)
  | .setDuration _ d => d

/-- `services/video_service.py` lines 164-165: the crossfade branch of
`apply_transition` reduces the requested window to half the smaller clip
duration only when the request strictly exceeds that smaller duration. -/
def crossfade_effective_duration (d1 d2 requested : ℚ) : ℚ :=
  if requested > min d1 d2 then min d1 d2 * (1 / 2) else requested

/-- `VideoCompositionService.apply_transition` (`services/video_service.py`
lines 145-181), branch by branch.  `NONE` concatenates; `FADE` fades the tail
of the first clip and the head of the second and concatenates; `CROSSFADE`
overlaps with the effective window above (the second clip starts at
`clip1.duration - d`); `SLIDE_LEFT` composites the second clip after the first
for the window and forces total duration `clip1.duration + duration`; every
other value degrades to concatenation. -/
def apply_transition (clip1 clip2 : Clip) (transition : TransitionType)
    (duration : ℚ) : Clip :=
  match transition with
  | .NONE => .concatC clip1 clip2
  | .FADE => .concatC (.fadeout clip1 duration) (.fadein clip2 duration)
  | .CROSSFADE =>
      let d := crossfade_effective_duration clip1.duration clip2.duration duration
      .compositeAt (.fadeout clip1 d) (.fadein clip2 d) (clip1.duration - d)
  | .SLIDE_LEFT =>
      .setDuration (.compositeAt clip1 (.setDuration clip2 duration) clip1.duration)
        (clip1.duration + duration)
  | _ => .concatC clip1 clip2

/-- C3 counterexample: with `dur(a) = dur(b) = 2` and a requested window of
exactly `2 = min(dur(a),dur(b))` (so the claim's `≥` hypothesis holds), the
code does not reduce the window: the effective overlap used is `2`, not
`min/2 = 1`, and the combined duration is `2`, not `2 + 2 - 1 = 3`. -/
theorem C3_crossfade_at_equality_counterexample :
    ((2 : ℚ) ≥ min 2 2) ∧
    crossfade_effective_duration 2 2 2 = 2 ∧
    ¬ crossfade_effective_duration 2 2 2 = min (2 : ℚ) 2 / 2 ∧
    (apply_transition (Clip.scene 0 2) (Clip.scene 1 2)
        TransitionType.CROSSFADE 2).duration = 2 ∧
    ¬ (apply_transition (Clip.scene 0 2) (Clip.scene 1 2)
        TransitionType.CROSSFADE 2).duration = 2 + 2 - min (2 : ℚ) 2 / 2 := by
  refine ⟨by norm_num, by norm_num [crossfade_effective_duration], ?_, ?_, ?_⟩
  · norm_num [crossfade_effective_duration]
  · norm_num [apply_transition, crossfade_effective_duration, Clip.duration]
  · norm_num [apply_transition, crossfade_effective_duration, Clip.duration]

/-- C3 (amended): for a crossfade whose requested window strictly exceeds
`min(dur(a),dur(b))`, the effective overlap used is `min(dur(a),dur(b))/2`
and the combined clip's duration is `dur(a) + dur(b)` minus that overlap. -/
theorem C3_crossfade_overlap (c1 c2 : Clip) (requested : ℚ)
    (h1 : 0 < c1.duration) (h2 : 0 < c2.duration)
    (hreq : min c1.duration c2.duration < requested) :
    crossfade_effective_duration c1.duration c2.duration requested
      = min c1.duration c2.duration / 2 ∧
    (apply_transition c1 c2 TransitionType.CROSSFADE requested).duration
      = c1.duration + c2.duration - min c1.duration c2.duration / 2 := by
  have hmin : 0 < min c1.duration c2.duration := lt_min h1 h2
  have heff : crossfade_effective_duration c1.duration c2.duration requested
      = min c1.duration c2.duration / 2 := by
    unfold crossfade_effective_duration
    rw [if_pos hreq]
    ring
  refine ⟨heff, ?_⟩
  have hd2 : min c1.duration c2.duration / 2 ≤ c2.duration := by
    have := min_le_right c1.duration c2.duration
    linarith
  simp only [apply_transition, Clip.duration, heff]
  rw [max_eq_right (by linarith)]
  ring

/-- Witness for `C3_crossfade_overlap` at `dur(a) = 2`, `dur(b) = 3`,
requested window `4 > min = 2`: effective overlap `1`, total `4`. -/
theorem C3_crossfade_overlap_witness :
    (0 < (Clip.scene 0 2).duration) ∧ (0 < (Clip.scene 1 3).duration) ∧
    (min (Clip.scene 0 2).duration (Clip.scene 1 3).duration < (4 : ℚ)) ∧
    (crossfade_effective_duration (Clip.scene 0 2).duration
        (Clip.scene 1 3).duration 4
      = min (Clip.scene 0 2).duration (Clip.scene 1 3).duration / 2 ∧
    (apply_transition (Clip.scene 0 2) (Clip.scene 1 3)
        TransitionType.CROSSFADE 4).duration
      = (Clip.scene 0 2).duration + (Clip.scene 1 3).duration
        - min (Clip.scene 0 2).duration (Clip.scene 1 3).duration / 2) :=
  ⟨by norm_num [Clip.duration], by norm_num [Clip.duration],
   by norm_num [Clip.duration],
   C3_crossfade_overlap (Clip.scene 0 2) (Clip.scene 1 3) 4
     (by norm_num [Clip.duration]) (by norm_num [Clip.duration])
     (by norm_num [Clip.duration])⟩

/-- `models/api.py`: `MediaType` enumeration. -/
inductive MediaType where
  | IMAGE
  | VIDEO
  | IMAGE_VIDEO
deriving DecidableEq, Repr

/-- `models/api.py`: `VideoFormat` enumeration. -/
inductive VideoFormat where
  | MP4
  | WEBM
  | AVI
  | MOV
  | GIF
deriving DecidableEq, Repr

/-- The string value of a `JobStatus`, as in the Python `str`-enum. -/
def JobStatus.value : JobStatus → String
  | .PENDING => "pending"
  | .QUEUED => "queued"
  | .PROCESSING => "processing"
  | .COMPLETED => "completed"
  | .FAILED => "failed"
  | .CANCELLED => "cancelled"

/-- A persisted job record (`models/database.py`, class `Job`), restricted to
the columns the verified operations read or write.  Timestamps are natural
numbers supplied by the caller (standing for `datetime.utcnow()`). -/
structure JobRec where
  id : String
  api_key : String
  status : JobStatus
  priority : JobPriority
  title : Option String
  description : Option String
  progress : ℚ
  error_message : Option String
  retry_count : ℕ
  max_retries : ℕ
  created_at : ℕ
  updated_at : ℕ
  started_at : Option ℕ
  completed_at : Option ℕ
  expires_at : ℕ
  webhook_url : Option String
deriving DecidableEq, Repr

/-- The `WHERE Job.id == job_id AND Job.api_key == api_key` filter used by
`JobService.get_job`, `update_job_status` and `delete_job`. -/
def jobKeyMatch (job_id api_key : String) (j : JobRec) : Bool :=
  j.id == job_id && j.api_key == api_key

/-- Update the first record satisfying `p` (SQLAlchemy mutates the single
object returned by `scalar_one_or_none`). -/
def updateFirst (p : JobRec → Bool) (f : JobRec → JobRec) : List JobRec → List JobRec
  | [] => []
  | j :: rest => if p j then f j :: rest else j :: updateFirst p f rest

/-- Remove the first record satisfying `p` (`db.delete(job)` on the single
object returned by `scalar_one_or_none`). -/
def removeFirst (p : JobRec → Bool) : List JobRec → List JobRec
  | [] => []
  | j :: rest => if p j then rest else j :: removeFirst p rest

/-- `JobService.get_job` (`services/job_service.py` lines 52-62):
`scalar_one_or_none` raises `MultipleResultsFound` (modelled as `.error`)
when more than one row matches, otherwise yields the unique match or `none`. -/
def get_job (db : List JobRec) (job_id api_key : String) :
    Except String (Option JobRec) :=
  let ms := db.filter (jobKeyMatch job_id api_key)
  if 2 ≤ ms.length then .error "MultipleResultsFound" else .ok ms.head?

/-- The record mutation performed by `JobService.update_job_status`
(`services/job_service.py` lines 133-138): set the status, stamp
`updated_at`, and stamp `completed_at` when the new status is terminal. -/
def statusUpdate (status : JobStatus) (now : ℕ) (j : JobRec) : JobRec :=
  { j with
    status := status
    updated_at := now
    completed_at :=
      if status = JobStatus.COMPLETED ∨ status = JobStatus.FAILED ∨
          status = JobStatus.CANCELLED then some now
      else j.completed_at }

/-- `JobService.update_job_status` (`services/job_service.py` lines 117-146).
Any exception (including `MultipleResultsFound` from `scalar_one_or_none`) is
caught and turned into `False`; a missing row yields `False`; otherwise the
mutation above is applied to the unique matching row and `True` returned.
There is no inspection of the job's current status. -/
def update_job_status (db : List JobRec) (job_id api_key : String)
    (status : JobStatus) (now : ℕ) : List JobRec × Bool :=
  let ms := db.filter (jobKeyMatch job_id api_key)
  if 2 ≤ ms.length then (db, false)
  else
    match ms with
    | [] => (db, false)
    | _ :: _ =>
        (updateFirst (jobKeyMatch job_id api_key) (statusUpdate status now) db, true)

/-- `JobService.delete_job` (`services/job_service.py` lines 148-169): on an
exception or a missing row return `False` leaving the store untouched,
otherwise delete the unique matching row and return `True`. -/
def delete_job (db : List JobRec) (job_id api_key : String) : List JobRec × Bool :=
  let ms := db.filter (jobKeyMatch job_id api_key)
  if 2 ≤ ms.length then (db, false)
  else
    match ms with
    | [] => (db, false)
    | _ :: _ => (removeFirst (jobKeyMatch job_id api_key) db, true)

/-- `models/api.py`: `JobListQuery` (filter, pagination and sort
parameters for `list_jobs`). -/
structure JobListQuery where
  status : Option JobStatus
  priority : Option JobPriority
  page : ℕ
  per_page : ℕ
  sort_by : String
  sort_order : String
deriving Repr

/-- Sort key for `order_by(getattr(Job, query.sort_by))` in
`JobService.list_jobs`, modelled over the numeric job columns; the
membership property proved about `list_jobs` holds for any ordering. -/
def jobSortKey (field : String) (j : JobRec) : ℚ :=
  if field == "created_at" then (j.created_at : ℚ)
  else if field == "updated_at" then (j.updated_at : ℚ)
  else if field == "expires_at" then (j.expires_at : ℚ)
  else if field == "retry_count" then (j.retry_count : ℚ)
  else if field == "progress" then j.progress
  else (j.created_at : ℚ)

/-- `JobService.list_jobs` (`services/job_service.py` lines 64-88): filter by
the caller's `api_key` plus the optional status/priority filters, order by
the requested column and direction, then apply `offset((page-1)*per_page)`
and `limit(per_page)`. -/
def list_jobs (db : List JobRec) (api_key : String) (query : JobListQuery) :
    List JobRec :=
  let filtered := db.filter (fun j =>
    j.api_key == api_key
    && (match query.status with | none => true | some s => j.status == s)
    && (match query.priority with | none => true | some p => j.priority == p))
  let sorted :=
    if query.sort_order == "asc" then
      filtered.mergeSort (fun a b =>
        decide (jobSortKey query.sort_by a ≤ jobSortKey query.sort_by b))
    else
      filtered.mergeSort (fun a b =>
        decide (jobSortKey query.sort_by b ≤ jobSortKey query.sort_by a))
  (sorted.drop ((query.page - 1) * query.per_page)).take query.per_page

/-- `JobService.create_job` (`services/job_service.py` lines 19-50): build a
fresh record in `PENDING` with zero progress and retry count, a 7-day
expiration, and Python's `title or "Untitled Composition"` defaulting (an
empty or missing title falls back); append it to the store and return it. -/
def create_job (db : List JobRec) (api_key : String)
    (title description : Option String) (priority : JobPriority)
    (webhook_url : Option String) (new_id : String) (now : ℕ) :
    List JobRec × JobRec :=
  let titleVal :=
    match title with
    | none => "Untitled Composition"
    | some t => if t == "" then "Untitled Composition" else t
  let job : JobRec :=
    { id := new_id
      api_key := api_key
      status := JobStatus.PENDING
      priority := priority
      title := some titleVal
      description := description
      progress := 0
      error_message := none
      retry_count := 0
      max_retries := 3
      created_at := now
      updated_at := now
      started_at := none
      completed_at := none
      expires_at := now + 7 * 86400
      webhook_url := webhook_url }
  (db ++ [job], job)

/-- `models/api.py`: `SceneData` (per-scene request fields used by the
pipeline). -/
structure SceneData where
  source : String
  media_type : MediaType
  duration : ℚ
  transition : TransitionType
deriving DecidableEq, Repr

/-- `models/api.py`: `VideoCompositionRequest`, restricted to the fields the
submission endpoint reads.  The scene map is an ordered association list
(Python dicts preserve insertion order). -/
structure VideoCompositionRequest where
  scenes : List (String × SceneData)
  priority : JobPriority
  webhook_url : Option String
deriving Repr

/-- `VideoCompositionRequest.get_total_duration` (`models/api.py`
lines 183-185). -/
def get_total_duration (req : VideoCompositionRequest) : ℚ :=
  (req.scenes.map (fun s => s.2.duration)).sum

/-- `VideoCompositionRequest.validate_scenes` (`models/api.py`
lines 175-181): pydantic rejects an empty scene map. -/
def validate_scenes (scenes : List (String × SceneData)) :
    Except String (List (String × SceneData)) :=
  if scenes.isEmpty then Except.error "At least one scene is required"
  else Except.ok scenes

/-- An HTTP error response (`fastapi.HTTPException`). -/
structure HttpError where
  status_code : ℕ
  detail : String
deriving DecidableEq, Repr

/-- Job title computed by `submit_composition_job`
(`api/endpoints/jobs.py` lines 68-72). -/
def compositionTitle (scene_names : List String) : String :=
  let base := "Composition: " ++ String.intercalate ", " (scene_names.take 3)
  if 3 < scene_names.length then
    base ++ " and " ++ toString (scene_names.length - 3) ++ " more scenes"
  else base

/-- Job description computed by `submit_composition_job`
(`api/endpoints/jobs.py` line 76); Python's `%.1f` rendering of the total
duration is abstracted to decimal rendering of the rational. -/
def compositionDescription (n : ℕ) (total : ℚ) : String :=
  "Video composition with " ++ toString n ++ " scenes, total duration: "
    ++ toString total ++ "s"

/-- `submit_composition_job` (`api/endpoints/jobs.py` lines 22-100): an empty
scene map is rejected with HTTP 400 before any job is created; otherwise a
title and description are computed and exactly one job is persisted via
`create_job` and returned. -/
def submit_composition_job (db : List JobRec) (req : VideoCompositionRequest)
    (api_key new_id : String) (now : ℕ) : List JobRec × Except HttpError JobRec :=
  if req.scenes.isEmpty then
    (db, Except.error ⟨400, "At least one scene is required"⟩)
  else
    let scene_names := req.scenes.map Prod.fst
    let title := compositionTitle scene_names
    let description := compositionDescription req.scenes.length (get_total_duration req)
    let res := create_job db api_key (some title) (some description) req.priority
      req.webhook_url new_id now
    (res.1, Except.ok res.2)

/-- Outcome of the render-pipeline invocation inside `process_job`
(`video_service.compose_video` together with the config parsing preceding
it): either an output path or a raised exception's message. -/
inductive PipelineResult where
  | ok (output_path : String)
  | fail (msg : String)
deriving DecidableEq, Repr

/-- The guard-and-begin prefix of `process_job` (`api/endpoints/jobs.py`
lines 216-232): look the job up by id and caller key (404 when absent), then
reject any job whose status is not `pending` with HTTP 400, else mark the
job `processing`.  An uncaught lookup exception surfaces as HTTP 500. -/
def process_job_begin (db : List JobRec) (job_id api_key : String) (now : ℕ) :
    Except HttpError (List JobRec) :=
  match get_job db job_id api_key with
  | Except.error e => Except.error ⟨500, e⟩
  | Except.ok none => Except.error ⟨404, "Job not found"⟩
  | Except.ok (some job) =>
      if job.status ≠ JobStatus.PENDING then
        Except.error ⟨400, "Job cannot be processed. Current status: "
          ++ job.status.value⟩
      else
        Except.ok (update_job_status db job_id api_key JobStatus.PROCESSING now).1

/-- `process_job` (`api/endpoints/jobs.py` lines 207-272): after the begin
prefix, the pipeline runs inside `try`; on success the job is marked
`completed` and the output path returned; on any exception the job is marked
`failed` and an HTTP 500 carrying the exception's message is raised.  No
field other than status and the timestamps is written on either path (the
source has `TODO` markers for output and error fields). -/
def process_job (db : List JobRec) (job_id api_key : String)
    (pipeline : PipelineResult) (now : ℕ) :
    List JobRec × Except HttpError String :=
  match process_job_begin db job_id api_key now with
  | Except.error e => (db, Except.error e)
  | Except.ok db1 =>
      match pipeline with
      | PipelineResult.ok output_path =>
          ((update_job_status db1 job_id api_key JobStatus.COMPLETED now).1,
           Except.ok output_path)
      | PipelineResult.fail msg =>
          ((update_job_status db1 job_id api_key JobStatus.FAILED now).1,
           Except.error ⟨500, "Job processing failed: " ++ msg⟩)

/-- Concrete job fixture used by witnesses and counterexamples. -/
def mkJob (id api_key : String) (status : JobStatus) : JobRec :=
  { id := id
    api_key := api_key
    status := status
    priority := JobPriority.NORMAL
    title := some "Composition: A"
    description := none
    progress := 0
    error_message := none
    retry_count := 0
    max_retries := 3
    created_at := 0
    updated_at := 0
    started_at := none
    completed_at := none
    expires_at := 604800
    webhook_url := none }

/-- `statusUpdate` touches only status and timestamps, so the id/key filter
is insensitive to it. -/
theorem jobKeyMatch_statusUpdate (job_id api_key : String) (s : JobStatus)
    (now : ℕ) (j : JobRec) :
    jobKeyMatch job_id api_key (statusUpdate s now j)
      = jobKeyMatch job_id api_key j := rfl

/-- Filtering after an in-place update of the first match: the head of the
filtered list is updated, the rest is unchanged. -/
theorem filter_updateFirst (p : JobRec → Bool) (f : JobRec → JobRec)
    (hp : ∀ j, p (f j) = p j) (db : List JobRec) :
    (updateFirst p f db).filter p =
      match db.filter p with
      | [] => []
      | x :: rest => f x :: rest := by
  induction db with
  | nil => rfl
  | cons j rest ih =>
    by_cases hj : p j = true
    · simp [updateFirst, hj, List.filter_cons, hp]
    · simp only [updateFirst, Bool.not_eq_true] at hj ⊢
      simp [hj, List.filter_cons, ih]

/-- When the id/key filter finds exactly one record, `update_job_status`
returns `True` and rewrites precisely that record with `statusUpdate`. -/
theorem update_job_status_single (db : List JobRec) (job_id api_key : String)
    (job : JobRec) (s : JobStatus) (now : ℕ)
    (hfind : db.filter (jobKeyMatch job_id api_key) = [job]) :
    update_job_status db job_id api_key s now
      = (updateFirst (jobKeyMatch job_id api_key) (statusUpdate s now) db, true) ∧
    (updateFirst (jobKeyMatch job_id api_key) (statusUpdate s now) db).filter
        (jobKeyMatch job_id api_key)
      = [statusUpdate s now job] := by
  constructor
  · unfold update_job_status
    rw [hfind]
    rfl
  · rw [filter_updateFirst _ _ (jobKeyMatch_statusUpdate job_id api_key s now) db,
      hfind]

/-- C2 counterexample: a job in the terminal `completed` state is moved to
`processing` by `update_job_status`, which reports success — the transition
out of the terminal state is applied instead of failing. -/
theorem C2_terminal_transition_applied_counterexample :
    (update_job_status [mkJob "j1" "k1" JobStatus.COMPLETED] "j1" "k1"
        JobStatus.PROCESSING 5).2 = true ∧
    ((update_job_status [mkJob "j1" "k1" JobStatus.COMPLETED] "j1" "k1"
        JobStatus.PROCESSING 5).1.map JobRec.status) = [JobStatus.PROCESSING] :=
  ⟨rfl, rfl⟩

/-- C2 (amended): `JobService.update_job_status` applies any requested status
to the unique record matching the id and owning key — including transitions
out of the terminal states `completed`, `failed` and `cancelled` — and
reports success; it never fails with `InvalidTransition` (no such guard
exists; `False` is returned only when no unique matching row exists). -/
theorem C2_update_ignores_terminal_state (db : List JobRec)
    (job_id api_key : String) (job : JobRec) (s : JobStatus) (now : ℕ)
    (hfind : db.filter (jobKeyMatch job_id api_key) = [job])
    (hterm : job.status = JobStatus.COMPLETED ∨ job.status = JobStatus.FAILED ∨
      job.status = JobStatus.CANCELLED) :
    (update_job_status db job_id api_key s now).2 = true ∧
    (update_job_status db job_id api_key s now).1.filter (jobKeyMatch job_id api_key)
      = [statusUpdate s now job] ∧
    (statusUpdate s now job).status = s := by
  obtain ⟨h1, h2⟩ := update_job_status_single db job_id api_key job s now hfind
  exact ⟨by rw [h1], by rw [h1]; exact h2, rfl⟩

/-- Witness for `C2_update_ignores_terminal_state`: a single completed job,
moved to `processing`. -/
theorem C2_update_ignores_terminal_state_witness :
    ([mkJob "j1" "k1" JobStatus.COMPLETED].filter (jobKeyMatch "j1" "k1")
        = [mkJob "j1" "k1" JobStatus.COMPLETED]) ∧
    ((mkJob "j1" "k1" JobStatus.COMPLETED).status = JobStatus.COMPLETED ∨
      (mkJob "j1" "k1" JobStatus.COMPLETED).status = JobStatus.FAILED ∨
      (mkJob "j1" "k1" JobStatus.COMPLETED).status = JobStatus.CANCELLED) ∧
    ((update_job_status [mkJob "j1" "k1" JobStatus.COMPLETED] "j1" "k1"
        JobStatus.PROCESSING 5).2 = true ∧
      (update_job_status [mkJob "j1" "k1" JobStatus.COMPLETED] "j1" "k1"
          JobStatus.PROCESSING 5).1.filter (jobKeyMatch "j1" "k1")
        = [statusUpdate JobStatus.PROCESSING 5 (mkJob "j1" "k1" JobStatus.COMPLETED)] ∧
      (statusUpdate JobStatus.PROCESSING 5 (mkJob "j1" "k1" JobStatus.COMPLETED)).status
        = JobStatus.PROCESSING) :=
  ⟨rfl, Or.inl rfl,
    C2_update_ignores_terminal_state [mkJob "j1" "k1" JobStatus.COMPLETED]
      "j1" "k1" (mkJob "j1" "k1" JobStatus.COMPLETED) JobStatus.PROCESSING 5
      rfl (Or.inl rfl)⟩

/-- C6 counterexample: processing a `pending` job does move it to
`processing`, but `started_at` is still unset afterwards — the start time is
not recorded, contrary to the claim. -/
theorem C6_started_at_not_recorded_counterexample :
    process_job_begin [mkJob "j1" "k1" JobStatus.PENDING] "j1" "k1" 7
      = Except.ok [statusUpdate JobStatus.PROCESSING 7 (mkJob "j1" "k1" JobStatus.PENDING)]
    ∧ (statusUpdate JobStatus.PROCESSING 7 (mkJob "j1" "k1" JobStatus.PENDING)).status
        = JobStatus.PROCESSING
    ∧ (statusUpdate JobStatus.PROCESSING 7 (mkJob "j1" "k1" JobStatus.PENDING)).started_at
        = none :=
  ⟨rfl, rfl, rfl⟩

/-- C6 (amended): the begin/process guard succeeds only from `pending`, in
which case the job is moved to `processing` with `updated_at` stamped but
`started_at` left untouched (the start time is not recorded); from any other
status it fails with an HTTP 400 invalid-transition error and the store —
hence the job's status — is unchanged. -/
theorem C6_begin_only_from_pending :
    (∀ (db : List JobRec) (job_id api_key : String) (job : JobRec) (now : ℕ),
      db.filter (jobKeyMatch job_id api_key) = [job] →
      job.status = JobStatus.PENDING →
      process_job_begin db job_id api_key now
        = Except.ok (updateFirst (jobKeyMatch job_id api_key)
            (statusUpdate JobStatus.PROCESSING now) db) ∧
      (updateFirst (jobKeyMatch job_id api_key)
          (statusUpdate JobStatus.PROCESSING now) db).filter (jobKeyMatch job_id api_key)
        = [statusUpdate JobStatus.PROCESSING now job] ∧
      (statusUpdate JobStatus.PROCESSING now job).status = JobStatus.PROCESSING ∧
      (statusUpdate JobStatus.PROCESSING now job).started_at = job.started_at ∧
      (statusUpdate JobStatus.PROCESSING now job).updated_at = now) ∧
    (∀ (db : List JobRec) (job_id api_key : String) (job : JobRec)
        (pipeline : PipelineResult) (now : ℕ),
      db.filter (jobKeyMatch job_id api_key) = [job] →
      job.status ≠ JobStatus.PENDING →
      process_job db job_id api_key pipeline now
        = (db, Except.error ⟨400, "Job cannot be processed. Current status: "
            ++ job.status.value⟩)) := by
  constructor
  · intro db job_id api_key job now hfind hpend
    obtain ⟨h1, h2⟩ := update_job_status_single db job_id api_key job
      JobStatus.PROCESSING now hfind
    refine ⟨?_, h2, rfl, rfl, rfl⟩
    unfold process_job_begin get_job
    rw [hfind]
    simp only [List.length_cons, List.length_nil]
    rw [if_neg (by norm_num)]
    simp only [List.head?_cons]
    rw [if_neg (by simp [hpend]), h1]
  · intro db job_id api_key job pipeline now hfind hne
    have hbegin : process_job_begin db job_id api_key now
        = Except.error ⟨400, "Job cannot be processed. Current status: "
            ++ job.status.value⟩ := by
      unfold process_job_begin get_job
      rw [hfind]
      simp only [List.length_cons, List.length_nil]
      rw [if_neg (by norm_num)]
      simp only [List.head?_cons]
      rw [if_pos hne]
    unfold process_job
    rw [hbegin]

/-- Witness for `C6_begin_only_from_pending`: the first part at a single
pending job, the second at a single completed job. -/
theorem C6_begin_only_from_pending_witness :
    (([mkJob "j1" "k1" JobStatus.PENDING].filter (jobKeyMatch "j1" "k1")
        = [mkJob "j1" "k1" JobStatus.PENDING]) ∧
      (mkJob "j1" "k1" JobStatus.PENDING).status = JobStatus.PENDING ∧
      process_job_begin [mkJob "j1" "k1" JobStatus.PENDING] "j1" "k1" 7
        = Except.ok (updateFirst (jobKeyMatch "j1" "k1")
            (statusUpdate JobStatus.PROCESSING 7) [mkJob "j1" "k1" JobStatus.PENDING])) ∧
    (([mkJob "j2" "k1" JobStatus.COMPLETED].filter (jobKeyMatch "j2" "k1")
        = [mkJob "j2" "k1" JobStatus.COMPLETED]) ∧
      (mkJob "j2" "k1" JobStatus.COMPLETED).status ≠ JobStatus.PENDING ∧
      process_job [mkJob "j2" "k1" JobStatus.COMPLETED] "j2" "k1"
          (PipelineResult.ok "out.mp4") 7
        = ([mkJob "j2" "k1" JobStatus.COMPLETED],
           Except.error ⟨400, "Job cannot be processed. Current status: "
             ++ (mkJob "j2" "k1" JobStatus.COMPLETED).status.value⟩)) :=
  ⟨⟨rfl, rfl,
    (C6_begin_only_from_pending.1 [mkJob "j1" "k1" JobStatus.PENDING] "j1" "k1"
      (mkJob "j1" "k1" JobStatus.PENDING) 7 rfl rfl).1⟩,
   ⟨rfl, by decide,
    C6_begin_only_from_pending.2 [mkJob "j2" "k1" JobStatus.COMPLETED] "j2" "k1"
      (mkJob "j2" "k1" JobStatus.COMPLETED) (PipelineResult.ok "out.mp4") 7
      rfl (by decide)⟩⟩

/-- C1 counterexample: a pipeline failure on a pending job is caught and the
job ends `failed`, but its `error_message` column is still `none` — the
exception's message is not recorded on the job (it only appears in the HTTP
500 detail), contrary to the claim. -/
theorem C1_error_message_not_recorded_counterexample :
    ((process_job [mkJob "j1" "k1" JobStatus.PENDING] "j1" "k1"
        (PipelineResult.fail "boom") 9).1.map JobRec.status = [JobStatus.FAILED]) ∧
    ((process_job [mkJob "j1" "k1" JobStatus.PENDING] "j1" "k1"
        (PipelineResult.fail "boom") 9).1.map JobRec.error_message = [none]) ∧
    (process_job [mkJob "j1" "k1" JobStatus.PENDING] "j1" "k1"
        (PipelineResult.fail "boom") 9).2
      = Except.error ⟨500, "Job processing failed: boom"⟩ :=
  ⟨rfl, rfl, rfl⟩

/-- C1 (amended): for a pending job whose pipeline invocation raises, the
drive/process operation catches the exception and transitions the job to
`failed` — it is never left in `processing` — and returns the exception's
message in the HTTP 500 detail; the job's `error_message` column, however,
is left unchanged rather than set to the message. -/
theorem C1_pipeline_failure_marks_failed (db : List JobRec)
    (job_id api_key msg : String) (job : JobRec) (now : ℕ)
    (hfind : db.filter (jobKeyMatch job_id api_key) = [job])
    (hpend : job.status = JobStatus.PENDING) :
    (process_job db job_id api_key (PipelineResult.fail msg) now).2
      = Except.error ⟨500, "Job processing failed: " ++ msg⟩ ∧
    (process_job db job_id api_key (PipelineResult.fail msg) now).1.filter
        (jobKeyMatch job_id api_key)
      = [statusUpdate JobStatus.FAILED now
          (statusUpdate JobStatus.PROCESSING now job)] ∧
    (statusUpdate JobStatus.FAILED now
        (statusUpdate JobStatus.PROCESSING now job)).status = JobStatus.FAILED ∧
    (statusUpdate JobStatus.FAILED now
        (statusUpdate JobStatus.PROCESSING now job)).error_message
      = job.error_message := by
  have hbegin := (C6_begin_only_from_pending.1 db job_id api_key job now
    hfind hpend).1
  have hfilter1 := (C6_begin_only_from_pending.1 db job_id api_key job now
    hfind hpend).2.1
  obtain ⟨h1, h2⟩ := update_job_status_single
    (updateFirst (jobKeyMatch job_id api_key) (statusUpdate JobStatus.PROCESSING now) db)
    job_id api_key (statusUpdate JobStatus.PROCESSING now job) JobStatus.FAILED now
    hfilter1
  unfold process_job
  rw [hbegin]
  dsimp only
  exact ⟨rfl, by rw [h1]; exact h2, rfl, rfl⟩

/-- Witness for `C1_pipeline_failure_marks_failed` at a single pending job
and the failure message "boom". -/
theorem C1_pipeline_failure_marks_failed_witness :
    ([mkJob "j1" "k1" JobStatus.PENDING].filter (jobKeyMatch "j1" "k1")
        = [mkJob "j1" "k1" JobStatus.PENDING]) ∧
    (mkJob "j1" "k1" JobStatus.PENDING).status = JobStatus.PENDING ∧
    (process_job [mkJob "j1" "k1" JobStatus.PENDING] "j1" "k1"
        (PipelineResult.fail "boom") 9).2
      = Except.error ⟨500, "Job processing failed: " ++ "boom"⟩ :=
  ⟨rfl, rfl,
    (C1_pipeline_failure_marks_failed [mkJob "j1" "k1" JobStatus.PENDING]
      "j1" "k1" "boom" (mkJob "j1" "k1" JobStatus.PENDING) 9 rfl rfl).1⟩

/-- C9: submission with an empty scene map fails with HTTP 400 and leaves
the store untouched — no job record is created; with at least one scene,
exactly one job is appended to the store, in the `pending` status, and
returned. -/
theorem C9_submit_scene_validation :
    (∀ (db : List JobRec) (req : VideoCompositionRequest)
        (api_key new_id : String) (now : ℕ),
      req.scenes = [] →
      submit_composition_job db req api_key new_id now
        = (db, Except.error ⟨400, "At least one scene is required"⟩)) ∧
    (∀ (db : List JobRec) (req : VideoCompositionRequest)
        (api_key new_id : String) (now : ℕ),
      req.scenes ≠ [] →
      ∃ job, submit_composition_job db req api_key new_id now
          = (db ++ [job], Except.ok job) ∧ job.status = JobStatus.PENDING) := by
  constructor
  · intro db req api_key new_id now h
    unfold submit_composition_job
    rw [if_pos (by simp [h])]
  · intro db req api_key new_id now h
    refine ⟨(create_job db api_key
        (some (compositionTitle (req.scenes.map Prod.fst)))
        (some (compositionDescription req.scenes.length (get_total_duration req)))
        req.priority req.webhook_url new_id now).2, ?_, rfl⟩
    unfold submit_composition_job
    rw [if_neg (by simp [h])]
    rfl

/-- Witness for `C9_submit_scene_validation`: the empty request and a
one-scene request. -/
theorem C9_submit_scene_validation_witness :
    ((VideoCompositionRequest.mk [] JobPriority.NORMAL none).scenes = [] ∧
      submit_composition_job []
          (VideoCompositionRequest.mk [] JobPriority.NORMAL none) "k1" "j1" 3
        = ([], Except.error ⟨400, "At least one scene is required"⟩)) ∧
    ((VideoCompositionRequest.mk
        [("Scene 1", SceneData.mk "https://example.com/a.jpg" MediaType.IMAGE 3
          TransitionType.FADE)] JobPriority.NORMAL none).scenes ≠ [] ∧
      ∃ job, submit_composition_job []
          (VideoCompositionRequest.mk
            [("Scene 1", SceneData.mk "https://example.com/a.jpg" MediaType.IMAGE 3
              TransitionType.FADE)] JobPriority.NORMAL none) "k1" "j1" 3
        = ([] ++ [job], Except.ok job) ∧ job.status = JobStatus.PENDING) :=
  ⟨⟨rfl, C9_submit_scene_validation.1 []
      (VideoCompositionRequest.mk [] JobPriority.NORMAL none) "k1" "j1" 3 rfl⟩,
   ⟨by decide,
    C9_submit_scene_validation.2 []
      (VideoCompositionRequest.mk
        [("Scene 1", SceneData.mk "https://example.com/a.jpg" MediaType.IMAGE 3
          TransitionType.FADE)] JobPriority.NORMAL none) "k1" "j1" 3
      (by decide)⟩⟩

/-- A record not matching `p` survives `removeFirst p`. -/
theorem mem_removeFirst_of_not (p : JobRec → Bool) (j : JobRec) :
    ∀ db : List JobRec, j ∈ db → p j = false → j ∈ removeFirst p db := by
  intro db
  induction db with
  | nil => intro h _; exact absurd h (List.not_mem_nil j)
  | cons k rest ih =>
    intro hmem hpj
    by_cases hk : p k = true
    · simp only [removeFirst, hk, if_true]
      rcases List.mem_cons.mp hmem with h | h
      · subst h; rw [hpj] at hk; exact absurd hk (by simp)
      · exact h
    · have hk' : ¬ (p k = true) := hk
      simp only [removeFirst, hk', if_false]
      rcases List.mem_cons.mp hmem with h | h
      · exact h ▸ List.mem_cons_self j (removeFirst p rest)
      · exact List.mem_cons_of_mem k (ih h hpj)

/-- C10: owner scoping of the job-store operations.  `get_job` only ever
returns a record whose id and owning key are the ones requested; `delete_job`
returns `False` and leaves the store unchanged when no record matches both,
and never removes a record that does not match both; `list_jobs` only
returns records owned by the caller's key. -/
theorem C10_owner_scoping :
    (∀ (db : List JobRec) (job_id api_key : String) (j : JobRec),
      get_job db job_id api_key = Except.ok (some j) →
      j.id = job_id ∧ j.api_key = api_key ∧ j ∈ db) ∧
    (∀ (db : List JobRec) (job_id api_key : String),
      (∀ j ∈ db, jobKeyMatch job_id api_key j = false) →
      delete_job db job_id api_key = (db, false)) ∧
    (∀ (db : List JobRec) (job_id api_key : String) (j : JobRec),
      j ∈ db → jobKeyMatch job_id api_key j = false →
      j ∈ (delete_job db job_id api_key).1) ∧
    (∀ (db : List JobRec) (api_key : String) (q : JobListQuery) (j : JobRec),
      j ∈ list_jobs db api_key q → j.api_key = api_key ∧ j ∈ db) := by
  refine ⟨?_, ?_, ?_, ?_⟩
  · intro db job_id api_key j h
    unfold get_job at h
    dsimp only at h
    split at h
    · exact absurd h (by simp)
    · have hhead : (db.filter (jobKeyMatch job_id api_key)).head? = some j := by
        simpa using h
      have hmem : j ∈ db.filter (jobKeyMatch job_id api_key) :=
        List.mem_of_mem_head? (by simp [hhead])
      have := List.mem_filter.mp hmem
      have hkey := this.2
      unfold jobKeyMatch at hkey
      rcases Bool.and_eq_true _ _ |>.mp hkey with ⟨h1, h2⟩
      exact ⟨eq_of_beq h1, eq_of_beq h2, this.1⟩
  · intro db job_id api_key hnone
    have hnil : db.filter (jobKeyMatch job_id api_key) = [] := by
      rw [List.filter_eq_nil_iff]
      intro a ha
      simp [hnone a ha]
    unfold delete_job
    rw [hnil]
    rfl
  · intro db job_id api_key j hmem hnot
    unfold delete_job
    by_cases hlen : 2 ≤ (db.filter (jobKeyMatch job_id api_key)).length
    · rw [if_pos hlen]; exact hmem
    · rw [if_neg hlen]
      cases hm : db.filter (jobKeyMatch job_id api_key) with
      | nil => exact hmem
      | cons a rest => exact mem_removeFirst_of_not _ j db hmem hnot
  · intro db api_key q j h
    unfold list_jobs at h
    have hsorted : j ∈ (db.filter (fun j =>
        j.api_key == api_key
        && (match q.status with | none => true | some s => j.status == s)
        && (match q.priority with | none => true | some p => j.priority == p))) := by
      have h1 := List.mem_of_mem_drop (List.mem_of_mem_take h)
      by_cases hord : q.sort_order == "asc"
      · rw [if_pos hord] at h1
        exact List.mem_mergeSort.mp h1
      · rw [if_neg hord] at h1
        exact List.mem_mergeSort.mp h1
    have := List.mem_filter.mp hsorted
    have hkey := this.2
    rcases Bool.and_eq_true _ _ |>.mp hkey with ⟨h12, _⟩
    rcases Bool.and_eq_true _ _ |>.mp h12 with ⟨h1, _⟩
    exact ⟨eq_of_beq h1, this.1⟩

/-- Witness for `C10_owner_scoping`: a two-owner store; the caller with key
"k1" retrieves, fails to delete, and lists only its own job. -/
theorem C10_owner_scoping_witness :
    (get_job [mkJob "j1" "k1" JobStatus.PENDING, mkJob "j2" "k2" JobStatus.PENDING]
        "j1" "k1" = Except.ok (some (mkJob "j1" "k1" JobStatus.PENDING)) ∧
      ((mkJob "j1" "k1" JobStatus.PENDING).id = "j1" ∧
        (mkJob "j1" "k1" JobStatus.PENDING).api_key = "k1" ∧
        mkJob "j1" "k1" JobStatus.PENDING
          ∈ [mkJob "j1" "k1" JobStatus.PENDING, mkJob "j2" "k2" JobStatus.PENDING])) ∧
    ((∀ j ∈ [mkJob "j2" "k2" JobStatus.PENDING], jobKeyMatch "j2" "k1" j = false) ∧
      delete_job [mkJob "j2" "k2" JobStatus.PENDING] "j2" "k1"
        = ([mkJob "j2" "k2" JobStatus.PENDING], false)) :=
  ⟨⟨rfl, C10_owner_scoping.1
      [mkJob "j1" "k1" JobStatus.PENDING, mkJob "j2" "k2" JobStatus.PENDING]
      "j1" "k1" (mkJob "j1" "k1" JobStatus.PENDING) rfl⟩,
   ⟨by decide, C10_owner_scoping.2.1 [mkJob "j2" "k2" JobStatus.PENDING]
      "j2" "k1" (by decide)⟩⟩

/-- An HTTP response as observed by `download_media_from_url`: status code,
`content-type` header (empty when absent) and body bytes. -/
structure HttpResponse where
  status : ℕ
  content_type : String
  body : List ℕ
deriving DecidableEq, Repr

/-- Python's `mimetypes.guess_extension`, modelled on the content types the
service commonly receives; unknown types yield `none` (the caller falls back
to `.tmp`). -/
def guess_extension (content_type : String) : Option String :=
  if content_type == "image/jpeg" then some ".jpg"
  else if content_type == "image/png" then some ".png"
  else if content_type == "image/gif" then some ".gif"
  else if content_type == "video/mp4" then some ".mp4"
  else none

/-- A scratch file produced by a download: its name under the service's
temporary directory, and the bytes written to it. -/
structure ScratchFile where
  path : String
  contents : List ℕ
deriving DecidableEq, Repr

/-- `VideoCompositionService.download_media_from_url`
(`services/video_service.py` lines 49-73).  The transfer has no size or time
bound in the source.  A response status other than exactly 200 raises a
`ValueError`, which the function's own `except` clause re-wraps; otherwise
the body is streamed into a scratch file named from a hash of the URL (the
hash is a parameter here) and the file's path returned. -/
def download_media_from_url (url : String) (resp : HttpResponse)
    (url_hash : String) : Except String ScratchFile :=
  if resp.status ≠ 200 then
    Except.error ("Failed to download media from " ++ url
      ++ ": Failed to download from " ++ url ++ ": HTTP " ++ toString resp.status)
  else
    let extension := (guess_extension resp.content_type).getD ".tmp"
    Except.ok ⟨"download_" ++ url_hash ++ extension, resp.body⟩

/-- `VideoCompositionService.is_url` (`services/video_service.py` lines
75-81): `urlparse` yields a nonempty scheme and netloc exactly for strings
of the shape `scheme://netloc...`; modelled for that absolute-URL shape. -/
def is_url (source : String) : Bool :=
  let cs := source.toList
  let scheme := cs.takeWhile (fun c => !(c == ':'))
  match cs.drop scheme.length with
  | ':' :: '/' :: '/' :: tail =>
      !scheme.isEmpty && !(tail.takeWhile (fun c => !(c == '/'))).isEmpty
  | _ => false

/-- `VideoCompositionService.get_media_path` (`services/video_service.py`
lines 83-93): URL sources are downloaded; anything else is passed through as
a local path (the file-service branch is a placeholder returning
`Path(source)`). -/
def get_media_path (source : String) (resp : HttpResponse) (url_hash : String) :
    Except String String :=
  if is_url source then
    (download_media_from_url source resp url_hash).map (fun f => f.path)
  else
    Except.ok source

/-- C7 counterexample: an HTTP 204 response is in the 2xx range, yet the
download fails — the code accepts exactly status 200, not the 2xx range. -/
theorem C7_http_204_rejected_counterexample :
    ((200 : ℕ) ≤ 204 ∧ (204 : ℕ) < 300) ∧
    download_media_from_url "https://example.com/a"
        (HttpResponse.mk 204 "image/png" [1, 2]) "h1"
      = Except.error ("Failed to download media from https://example.com/a"
          ++ ": Failed to download from https://example.com/a: HTTP 204") :=
  ⟨⟨by norm_num, by norm_num⟩, rfl⟩

/-- C7 (amended): for a source that parses as an absolute URL the resolver
routes to the download; the download fails exactly when the response status
differs from 200 (there is no 2xx range check and no size or time bound),
and for a 200 response the body bytes are written to a scratch file whose
path — `download_` plus the URL hash plus the guessed extension — is
returned. -/
theorem C7_download_status_check (url url_hash : String) (resp : HttpResponse) :
    (resp.status ≠ 200 →
      download_media_from_url url resp url_hash
        = Except.error ("Failed to download media from " ++ url
            ++ ": Failed to download from " ++ url ++ ": HTTP "
            ++ toString resp.status)) ∧
    (resp.status = 200 →
      download_media_from_url url resp url_hash
        = Except.ok ⟨"download_" ++ url_hash
            ++ (guess_extension resp.content_type).getD ".tmp", resp.body⟩) ∧
    (is_url url = true →
      get_media_path url resp url_hash
        = (download_media_from_url url resp url_hash).map (fun f => f.path)) := by
  refine ⟨?_, ?_, ?_⟩
  · intro h
    unfold download_media_from_url
    rw [if_pos h]
  · intro h
    unfold download_media_from_url
    rw [if_neg (by simp [h])]
  · intro h
    unfold get_media_path
    rw [if_pos h]

/-- Witness for `C7_download_status_check`: a 404 response fails, a 200
response with a PNG body succeeds, and `https://example.com/a` is treated as
a URL. -/
theorem C7_download_status_check_witness :
    ((404 : ℕ) ≠ 200 ∧
      download_media_from_url "https://example.com/a"
          (HttpResponse.mk 404 "" []) "h1"
        = Except.error ("Failed to download media from https://example.com/a"
            ++ ": Failed to download from https://example.com/a: HTTP 404")) ∧
    ((200 : ℕ) = 200 ∧
      download_media_from_url "https://example.com/a"
          (HttpResponse.mk 200 "image/png" [7, 8]) "h1"
        = Except.ok ⟨"download_h1.png", [7, 8]⟩) ∧
    (is_url "https://example.com/a" = true ∧
      get_media_path "https://example.com/a" (HttpResponse.mk 200 "image/png" [7, 8]) "h1"
        = Except.ok "download_h1.png") :=
  ⟨⟨by norm_num,
    (C7_download_status_check "https://example.com/a" "h1"
      (HttpResponse.mk 404 "" [])).1 (by norm_num)⟩,
   ⟨rfl, by
      have := (C7_download_status_check "https://example.com/a" "h1"
        (HttpResponse.mk 200 "image/png" [7, 8])).2.1 rfl
      simpa [guess_extension] using this⟩,
   ⟨by decide, by
      have := (C7_download_status_check "https://example.com/a" "h1"
        (HttpResponse.mk 200 "image/png" [7, 8])).2.2 (by decide)
      rw [this]
      rfl⟩⟩

/-- Scene input to the render pipeline: the name (dict key), duration and
transition from `SceneData`, plus an environment bit recording whether
`create_clip_from_scene` succeeds for this scene's media (decode and
download failures are environmental, outside the pipeline's control). -/
structure SceneSpec where
  name : String
  duration : ℚ
  transition : TransitionType
  materialize_ok : Bool
deriving DecidableEq, Repr

/-- The clip-creation loop of `compose_video` (`services/video_service.py`
lines 214-225): for each scene, first emit the per-scene progress event
`10 + (i / N) * 50`, then materialize the clip; a failure raises
`ValueError("Failed to create clip from <name>: ...")`, abandoning the loop
with every previously created clip still open.  Returns the emitted events,
the indices of the clips opened, and the `(clip, transition)` list or the
raised error. -/
def create_clips_loop (N : ℕ) :
    ℕ → List SceneSpec →
      List (String × ℚ) × List ℕ × Except String (List (Clip × TransitionType))
  | _, [] => ([], [], Except.ok [])
  | i, s :: rest =>
    let ev := ("Processing scene: " ++ s.name, 10 + ((i : ℚ) / (N : ℚ)) * 50)
    if s.materialize_ok then
      let r := create_clips_loop N (i + 1) rest
      (ev :: r.1, i :: r.2.1,
        match r.2.2 with
        | Except.error e => Except.error e
        | Except.ok l => Except.ok ((Clip.scene i s.duration, s.transition) :: l))
    else
      ([ev], [], Except.error ("Failed to create clip from " ++ s.name))

/-- The transition fold of `compose_video` (`services/video_service.py`
lines 230-242), instrumented with the list of Compositor calls it makes:
the clip at index 0 starts `final_clips`; each later clip with a non-`NONE`
transition replaces the accumulator tail `final_clips[-1]` by
`apply_transition(final_clips[-1], clip, transition)` (with the default
window 0.5), recording the call; a `NONE` transition appends the clip. -/
def apply_transitions_loop :
    ℕ → List (Clip × TransitionType) → List Clip →
      List (Clip × Clip × TransitionType) →
      List Clip × List (Clip × Clip × TransitionType)
  | _, [], acc, calls => (acc, calls)
  | i, (clip, transition) :: rest, acc, calls =>
    if i = 0 then
      apply_transitions_loop (i + 1) rest (acc ++ [clip]) calls
    else if transition ≠ TransitionType.NONE then
      match acc.getLast? with
      | some prev =>
          apply_transitions_loop (i + 1) rest
            (acc.dropLast ++ [apply_transition prev clip transition (1 / 2)])
            (calls ++ [(prev, clip, transition)])
      | none => apply_transitions_loop (i + 1) rest (acc ++ [clip]) calls
    else
      apply_transitions_loop (i + 1) rest (acc ++ [clip]) calls

/-- The scene index of a scene clip; composite clips have none (used to
model the `clip.close()` loop over the `clips` list). -/
def Clip.sceneIdx : Clip → Option ℕ
  | .scene i _ => some i
  | _ => none

/-- Observable outcome of one `compose_video` invocation: the progress
events delivered to the callback in order, the scene clips still open on
return, the Compositor calls made by the fold, and the result. -/
structure ComposeOutcome where
  progress_events : List (String × ℚ)
  open_clips : List ℕ
  transition_calls : List (Clip × Clip × TransitionType)
  result : Except String String
deriving Repr

/-- `VideoCompositionService.compose_video` (`services/video_service.py`
lines 183-317).  `write_ok` models whether the final encode succeeds and
`output_path` stands for the generated output filename.  Checkpoints 10,
per-scene, 70, 80 and 90 are emitted in order; on a successful encode the
100 checkpoint is emitted and then every clip in `clips` is closed; the
`except` clause wraps any raised error without closing anything. -/
def compose_video (scenes : List SceneSpec) (write_ok : Bool)
    (output_path : String) : ComposeOutcome :=
  let N := scenes.length
  let r := create_clips_loop N 0 scenes
  let evs0 := ("Creating clips from scenes", (10 : ℚ)) :: r.1
  match r.2.2 with
  | Except.error e =>
      ⟨evs0, r.2.1, [], Except.error ("Video composition failed: " ++ e)⟩
  | Except.ok clips =>
      let fold := apply_transitions_loop 0 clips [] []
      let evs1 := evs0 ++ [("Applying transitions", 70), ("Concatenating video", 80),
        ("Rendering final video", 90)]
      if write_ok then
        let closed := clips.filterMap (fun ct => ct.1.sceneIdx)
        ⟨evs1 ++ [("Video composition complete", 100)],
         r.2.1.filter (fun i => decide (¬ i ∈ closed)),
         fold.2, Except.ok output_path⟩
      else
        ⟨evs1, r.2.1, fold.2, Except.error "Video composition failed: write error"⟩

/-- Specification of the `(clip, transition)` list produced by a fully
successful clip-creation loop starting at scene index `i`. -/
def scene_clips_from (i : ℕ) : List SceneSpec → List (Clip × TransitionType)
  | [] => []
  | s :: rest =>
      (Clip.scene i s.duration, s.transition) :: scene_clips_from (i + 1) rest

/-- Specification of the progress events emitted by the clip-creation loop
starting at scene index `i`. -/
def scene_events_from (N i : ℕ) : List SceneSpec → List (String × ℚ)
  | [] => []
  | s :: rest =>
      ("Processing scene: " ++ s.name, 10 + ((i : ℚ) / (N : ℚ)) * 50)
        :: scene_events_from N (i + 1) rest

/-- Characterization of a fully successful clip-creation loop. -/
theorem create_clips_loop_ok (N : ℕ) :
    ∀ (specs : List SceneSpec) (i : ℕ),
      (∀ s ∈ specs, s.materialize_ok = true) →
      create_clips_loop N i specs
        = (scene_events_from N i specs, List.range' i specs.length,
            Except.ok (scene_clips_from i specs)) := by
  intro specs
  induction specs with
  | nil => intro i _; rfl
  | cons s rest ih =>
    intro i hok
    have hs : s.materialize_ok = true := hok s (List.mem_cons_self s rest)
    have hrest : ∀ x ∈ rest, x.materialize_ok = true :=
      fun x hx => hok x (List.mem_cons_of_mem s hx)
    unfold create_clips_loop
    rw [if_pos hs, ih (i + 1) hrest]
    simp [scene_events_from, scene_clips_from, List.range'_succ]

/-- The clips created by a successful loop are exactly the scene clips with
indices `i, i+1, ...`, so closing every member of `clips` closes every
opened index. -/
theorem scene_clips_from_sceneIdx (specs : List SceneSpec) :
    ∀ i : ℕ, (scene_clips_from i specs).filterMap (fun ct => ct.1.sceneIdx)
      = List.range' i specs.length := by
  induction specs with
  | nil => intro i; rfl
  | cons s rest ih =>
    intro i
    have hhead : (Clip.scene i s.duration).sceneIdx = some i := rfl
    simp only [scene_clips_from, List.filterMap_cons, hhead, ih (i + 1)]
    rw [List.length_cons, List.range'_succ]

/-- C4 counterexample: two scenes materialize, the final encode fails; the
invocation ends with both scene clips still open — the cleanup loop runs
only on the success path, after `write_videofile`. -/
theorem C4_leak_on_failure_counterexample :
    (compose_video
        [SceneSpec.mk "Scene 1" 3 TransitionType.NONE true,
         SceneSpec.mk "Scene 2" 5 TransitionType.FADE true] false "out.mp4").open_clips
      = [0, 1] ∧
    (compose_video
        [SceneSpec.mk "Scene 1" 3 TransitionType.NONE true,
         SceneSpec.mk "Scene 2" 5 TransitionType.FADE true] false "out.mp4").result
      = Except.error "Video composition failed: write error" ∧
    ([0, 1] : List ℕ) ≠ [] := by
  refine ⟨?_, ?_, by decide⟩ <;> rfl

/-- C4 (amended): when every scene materializes, the success exit path of
`compose_video` closes every intermediate scene clip before returning the
artifact path; but on the failure exit of the final encode, every created
scene clip remains open — the release is not unconditional. -/
theorem C4_cleanup_success_only (scenes : List SceneSpec) (output_path : String)
    (hok : ∀ s ∈ scenes, s.materialize_ok = true) :
    ((compose_video scenes true output_path).open_clips = [] ∧
      (compose_video scenes true output_path).result = Except.ok output_path) ∧
    ((compose_video scenes false output_path).open_clips
        = List.range scenes.length ∧
      (compose_video scenes false output_path).result
        = Except.error "Video composition failed: write error") := by
  have hloop := create_clips_loop_ok scenes.length scenes 0 hok
  have hclosed := scene_clips_from_sceneIdx scenes 0
  have hsucc : compose_video scenes true output_path =
      ⟨((("Creating clips from scenes", (10 : ℚ))
            :: scene_events_from scenes.length 0 scenes)
          ++ [("Applying transitions", 70), ("Concatenating video", 80),
              ("Rendering final video", 90)])
          ++ [("Video composition complete", 100)],
       (List.range' 0 scenes.length).filter (fun i =>
         decide (¬ i ∈ (scene_clips_from 0 scenes).filterMap
           (fun ct => ct.1.sceneIdx))),
       (apply_transitions_loop 0 (scene_clips_from 0 scenes) [] []).2,
       Except.ok output_path⟩ := by
    simp only [compose_video, hloop]
    rw [if_pos trivial]
  have hfail : compose_video scenes false output_path =
      ⟨(("Creating clips from scenes", (10 : ℚ))
            :: scene_events_from scenes.length 0 scenes)
          ++ [("Applying transitions", 70), ("Concatenating video", 80),
              ("Rendering final video", 90)],
       List.range' 0 scenes.length,
       (apply_transitions_loop 0 (scene_clips_from 0 scenes) [] []).2,
       Except.error "Video composition failed: write error"⟩ := by
    simp only [compose_video, hloop]
    rw [if_neg Bool.false_ne_true]
  refine ⟨⟨?_, ?_⟩, ?_, ?_⟩
  · rw [hsucc]
    show (List.range' 0 scenes.length).filter _ = []
    rw [List.filter_eq_nil_iff]
    intro a ha
    rw [hclosed]
    simp only [decide_eq_true_eq, Decidable.not_not, Bool.not_eq_true]
    exact ha
  · rw [hsucc]
  · rw [hfail]
    show List.range' 0 scenes.length = List.range scenes.length
    rw [List.range_eq_range']
  · rw [hfail]

/-- Witness for `C4_cleanup_success_only`: two materializing scenes. -/
theorem C4_cleanup_success_only_witness :
    (∀ s ∈ [SceneSpec.mk "Scene 1" 3 TransitionType.NONE true,
            SceneSpec.mk "Scene 2" 5 TransitionType.FADE true],
      s.materialize_ok = true) ∧
    ((compose_video [SceneSpec.mk "Scene 1" 3 TransitionType.NONE true,
          SceneSpec.mk "Scene 2" 5 TransitionType.FADE true] true "out.mp4").open_clips
        = [] ∧
      (compose_video [SceneSpec.mk "Scene 1" 3 TransitionType.NONE true,
          SceneSpec.mk "Scene 2" 5 TransitionType.FADE true] true "out.mp4").result
        = Except.ok "out.mp4") :=
  ⟨by decide,
   (C4_cleanup_success_only
      [SceneSpec.mk "Scene 1" 3 TransitionType.NONE true,
       SceneSpec.mk "Scene 2" 5 TransitionType.FADE true] "out.mp4" (by decide)).1⟩

/-- The per-scene progress value grows with the scene index. -/
theorem scene_progress_step (N k : ℕ) :
    10 + ((k : ℚ) / (N : ℚ)) * 50 ≤ 10 + (((k + 1 : ℕ) : ℚ) / (N : ℚ)) * 50 := by
  by_cases hN : (N : ℚ) = 0
  · simp [hN]
  · have hNpos : (0 : ℚ) < N := lt_of_le_of_ne (by positivity) (Ne.symm hN)
    have hk : (k : ℚ) ≤ ((k + 1 : ℕ) : ℚ) := by push_cast; linarith
    have hdiv : (k : ℚ) / (N : ℚ) ≤ ((k + 1 : ℕ) : ℚ) / (N : ℚ) :=
      (div_le_div_iff_of_pos_right hNpos).mpr hk
    linarith

/-- Per-scene progress values are at least the 10 checkpoint. -/
theorem scene_progress_ge_ten (N k : ℕ) :
    (10 : ℚ) ≤ 10 + ((k : ℚ) / (N : ℚ)) * 50 := by
  have h : (0 : ℚ) ≤ ((k : ℚ) / (N : ℚ)) * 50 := by positivity
  linarith

/-- Per-scene progress values for `k ≤ N` stay at or below 60. -/
theorem scene_progress_le_sixty (N k : ℕ) (h : k ≤ N) (hN : 0 < N) :
    10 + ((k : ℚ) / (N : ℚ)) * 50 ≤ 60 := by
  have hNQ : (0 : ℚ) < (N : ℚ) := by exact_mod_cast hN
  have hdiv : (k : ℚ) / (N : ℚ) ≤ 1 := by
    rw [div_le_one hNQ]; exact_mod_cast h
  linarith

/-- A map of a step-monotone function over a contiguous range is a
non-decreasing chain. -/
theorem chain_le_map_range (f : ℕ → ℚ) (hf : ∀ k, f k ≤ f (k + 1)) :
    ∀ (len i : ℕ),
      List.Chain' (fun a b : ℚ => a ≤ b) ((List.range' i len).map f) := by
  intro len
  induction len with
  | zero => intro i; simp
  | succ n ih =>
    intro i
    rw [List.range'_succ, List.map_cons]
    refine List.chain'_cons'.mpr ⟨?_, ih (i + 1)⟩
    intro y hy
    cases n with
    | zero => simp at hy
    | succ m =>
      rw [List.range'_succ, List.map_cons, List.head?_cons] at hy
      have hy' : y = f (i + 1) := by
        simpa [eq_comm] using hy
      rw [hy']
      exact hf i

/-- Last element of a map over a nonempty contiguous range. -/
theorem getLast_map_range (f : ℕ → ℚ) :
    ∀ (n i : ℕ), ((List.range' i (n + 1)).map f).getLast? = some (f (i + n)) := by
  intro n
  induction n with
  | zero => intro i; simp
  | succ m ih =>
    intro i
    rw [List.range'_succ, List.map_cons]
    rw [List.range'_succ, List.map_cons, List.getLast?_cons_cons,
      ← List.map_cons, ← List.range'_succ, ih (i + 1)]
    have harith : i + 1 + m = i + (m + 1) := by omega
    rw [harith]

/-- `getLast?` ignores the head when the tail is nonempty. -/
theorem getLast_cons_of_ne_nil {α : Type} (a : α) (l : List α) (h : l ≠ []) :
    (a :: l).getLast? = l.getLast? := by
  cases l with
  | nil => exact absurd rfl h
  | cons b t => exact List.getLast?_cons_cons

/-- The progress values of the clip-creation loop's events. -/
theorem scene_events_values (N : ℕ) :
    ∀ (specs : List SceneSpec) (i : ℕ),
      (scene_events_from N i specs).map Prod.snd
        = (List.range' i specs.length).map
            (fun k : ℕ => 10 + ((k : ℚ) / (N : ℚ)) * 50) := by
  intro specs
  induction specs with
  | nil => intro i; rfl
  | cons s rest ih =>
    intro i
    simp only [scene_events_from, List.map_cons, List.length_cons]
    rw [List.range'_succ, List.map_cons, ih (i + 1)]

/-- Characterization of `compose_video` when every scene materializes and
the final encode succeeds. -/
theorem compose_video_ok_spec (scenes : List SceneSpec) (output_path : String)
    (hok : ∀ s ∈ scenes, s.materialize_ok = true) :
    compose_video scenes true output_path =
      ⟨((("Creating clips from scenes", (10 : ℚ))
            :: scene_events_from scenes.length 0 scenes)
          ++ [("Applying transitions", 70), ("Concatenating video", 80),
              ("Rendering final video", 90)])
          ++ [("Video composition complete", 100)],
       (List.range' 0 scenes.length).filter (fun i =>
         decide (¬ i ∈ (scene_clips_from 0 scenes).filterMap
           (fun ct => ct.1.sceneIdx))),
       (apply_transitions_loop 0 (scene_clips_from 0 scenes) [] []).2,
       Except.ok output_path⟩ := by
  simp only [compose_video, create_clips_loop_ok scenes.length scenes 0 hok]
  rw [if_pos trivial]

/-- C5: for a successful render over at least one scene, the progress values
delivered to the callback — 10, then the per-scene values `10 + 50·(i/N)`,
then the 70, 80, 90 checkpoints — are non-decreasing over the whole run, and
the final delivered value is exactly 100. -/
theorem C5_progress_monotone (scenes : List SceneSpec) (output_path : String)
    (hne : scenes ≠ []) (hok : ∀ s ∈ scenes, s.materialize_ok = true) :
    List.Chain' (fun a b : ℚ => a ≤ b)
      ((compose_video scenes true output_path).progress_events.map Prod.snd) ∧
    ((compose_video scenes true output_path).progress_events.map Prod.snd).getLast?
      = some 100 := by
  obtain ⟨N, hN⟩ : ∃ N, scenes.length = N + 1 := by
    cases scenes with
    | nil => exact absurd rfl hne
    | cons a l => exact ⟨l.length, rfl⟩
  rw [compose_video_ok_spec scenes output_path hok]
  dsimp only
  have hvals := scene_events_values scenes.length scenes 0
  rw [hN] at hvals
  constructor
  · simp only [List.map_append, List.map_cons, List.map_nil, List.cons_append,
      List.append_nil, hN, hvals]
    have hstep : ∀ k, (fun k : ℕ => 10 + ((k : ℚ) / ((N + 1 : ℕ) : ℚ)) * 50) k
        ≤ (fun k : ℕ => 10 + ((k : ℚ) / ((N + 1 : ℕ) : ℚ)) * 50) (k + 1) :=
      fun k => scene_progress_step (N + 1) k
    have hchainV := chain_le_map_range _ hstep (N + 1) 0
    have hlastV := getLast_map_range
      (fun k : ℕ => 10 + ((k : ℚ) / ((N + 1 : ℕ) : ℚ)) * 50) N 0
    rw [List.append_assoc, ← List.cons_append]
    refine List.chain'_append.mpr ⟨?_, ?_, ?_⟩
    · refine List.chain'_cons'.mpr ⟨?_, hchainV⟩
      intro y hy
      have hmem : y ∈ (List.range' 0 (N + 1)).map
          (fun k : ℕ => 10 + ((k : ℚ) / ((N + 1 : ℕ) : ℚ)) * 50) :=
        List.mem_of_mem_head? hy
      obtain ⟨k, _, hk⟩ := List.mem_map.mp hmem
      rw [← hk]
      exact scene_progress_ge_ten (N + 1) k
    · refine List.chain'_cons.mpr ⟨by norm_num, ?_⟩
      refine List.chain'_cons.mpr ⟨by norm_num, ?_⟩
      refine List.chain'_cons.mpr ⟨by norm_num, ?_⟩
      exact List.chain'_singleton _
    · intro x hx y hy
      have hy70 : y = 70 := by simpa [eq_comm] using hy
      have hVne : (List.range' 0 (N + 1)).map
          (fun k : ℕ => 10 + ((k : ℚ) / ((N + 1 : ℕ) : ℚ)) * 50) ≠ [] := by
        apply List.ne_nil_of_length_pos
        simp [List.length_range']
      have hlast10 : (((10 : ℚ) :: (List.range' 0 (N + 1)).map
          (fun k : ℕ => 10 + ((k : ℚ) / ((N + 1 : ℕ) : ℚ)) * 50))).getLast?
          = some (10 + ((N : ℚ) / ((N + 1 : ℕ) : ℚ)) * 50) := by
        rw [getLast_cons_of_ne_nil _ _ hVne, hlastV]
        norm_num
      rw [hlast10] at hx
      have hx' : x = 10 + ((N : ℚ) / ((N + 1 : ℕ) : ℚ)) * 50 := by
        simpa [eq_comm] using hx
      rw [hx', hy70]
      have h60 := scene_progress_le_sixty (N + 1) N (Nat.le_succ N) (Nat.succ_pos N)
      linarith
  · simp only [List.map_append, List.map_cons, List.map_nil]
    rw [List.getLast?_concat]

/-- Witness for `C5_progress_monotone`: two materializing scenes. -/
theorem C5_progress_monotone_witness :
    ([SceneSpec.mk "Scene 1" 3 TransitionType.FADE true,
      SceneSpec.mk "Scene 2" 5 TransitionType.CROSSFADE true]
        ≠ ([] : List SceneSpec)) ∧
    (∀ s ∈ [SceneSpec.mk "Scene 1" 3 TransitionType.FADE true,
        SceneSpec.mk "Scene 2" 5 TransitionType.CROSSFADE true],
      s.materialize_ok = true) ∧
    (List.Chain' (fun a b : ℚ => a ≤ b)
        ((compose_video [SceneSpec.mk "Scene 1" 3 TransitionType.FADE true,
            SceneSpec.mk "Scene 2" 5 TransitionType.CROSSFADE true] true
          "out.mp4").progress_events.map Prod.snd) ∧
      ((compose_video [SceneSpec.mk "Scene 1" 3 TransitionType.FADE true,
            SceneSpec.mk "Scene 2" 5 TransitionType.CROSSFADE true] true
          "out.mp4").progress_events.map Prod.snd).getLast? = some 100) :=
  ⟨by decide, by decide,
   C5_progress_monotone
     [SceneSpec.mk "Scene 1" 3 TransitionType.FADE true,
      SceneSpec.mk "Scene 2" 5 TransitionType.CROSSFADE true] "out.mp4"
     (by decide) (by decide)⟩

/-- The scene indices occurring in a clip, in presentation order. -/
def Clip.sceneIndices : Clip → List ℕ
  | .scene i _ => [i]
  | .concatC a b => a.sceneIndices ++ b.sceneIndices
  | .fadeout a _ => a.sceneIndices
  | .fadein a _ => a.sceneIndices
  | .compositeAt a b _ => a.sceneIndices ++ b.sceneIndices
  | .setDuration a _ => a.sceneIndices

/-- Every branch of the Compositor presents the first argument's scenes
before the second argument's. -/
theorem apply_transition_sceneIndices (c1 c2 : Clip) (t : TransitionType)
    (d : ℚ) :
    (apply_transition c1 c2 t d).sceneIndices
      = c1.sceneIndices ++ c2.sceneIndices := by
  cases t <;> simp [apply_transition, Clip.sceneIndices]

/-- Scene indices of an accumulator of clips, in order. -/
def clipsIndices (l : List Clip) : List ℕ :=
  (l.map Clip.sceneIndices).flatten

theorem clipsIndices_append (l1 l2 : List Clip) :
    clipsIndices (l1 ++ l2) = clipsIndices l1 ++ clipsIndices l2 := by
  simp [clipsIndices]

theorem clipsIndices_singleton (c : Clip) : clipsIndices [c] = c.sceneIndices := by
  simp [clipsIndices]

/-- Invariant of the instrumented transition fold, for scene indices `i ≥ 1`:
the accumulator always holds the scenes `0..i-1` in order, every recorded
call joins some scene `i + k` onto material built solely from earlier
scenes using that scene's own transition, and every later scene with a
non-`NONE` transition gets exactly such a call. -/
theorem apply_transitions_loop_invariant (specs : List SceneSpec) :
    ∀ (i : ℕ) (acc : List Clip) (calls : List (Clip × Clip × TransitionType)),
      1 ≤ i →
      clipsIndices acc = List.range i →
      clipsIndices (apply_transitions_loop i (scene_clips_from i specs) acc calls).1
          = List.range (i + specs.length) ∧
      (∀ c ∈ calls,
        c ∈ (apply_transitions_loop i (scene_clips_from i specs) acc calls).2) ∧
      (∀ c ∈ (apply_transitions_loop i (scene_clips_from i specs) acc calls).2,
        c ∈ calls ∨
          ∃ k s prev, specs.get? k = some s ∧
            s.transition ≠ TransitionType.NONE ∧
            c = (prev, Clip.scene (i + k) s.duration, s.transition) ∧
            ∀ m ∈ prev.sceneIndices, m < i + k) ∧
      (∀ k s, specs.get? k = some s → s.transition ≠ TransitionType.NONE →
        ∃ prev, (prev, Clip.scene (i + k) s.duration, s.transition)
            ∈ (apply_transitions_loop i (scene_clips_from i specs) acc calls).2 ∧
          ∀ m ∈ prev.sceneIndices, m < i + k) := by
  induction specs with
  | nil =>
    intro i acc calls hi hacc
    refine ⟨by simpa using hacc, fun c hc => hc, fun c hc => Or.inl hc, ?_⟩
    intro k s hk
    simp [List.get?] at hk
  | cons s rest ih =>
    intro i acc calls hi hacc
    have hne : acc ≠ [] := by
      intro h
      rw [h] at hacc
      have : (List.range i).length = 0 := by rw [← hacc]; rfl
      simp at this
      omega
    have hprev := List.getLast?_eq_getLast acc hne
    set prev := acc.getLast hne with hprevdef
    have hsplit : acc.dropLast ++ [prev] = acc := List.dropLast_append_getLast hne
    have hprevmem : ∀ m ∈ prev.sceneIndices, m < i := by
      intro m hm
      have : m ∈ clipsIndices acc := by
        rw [← hsplit, clipsIndices_append, clipsIndices_singleton]
        exact List.mem_append_right _ hm
      rw [hacc] at this
      exact List.mem_range.mp this
    by_cases ht : s.transition = TransitionType.NONE
    · -- NONE: the clip is appended, no Compositor call
      have hstep : apply_transitions_loop i
          (scene_clips_from i (s :: rest)) acc calls
          = apply_transitions_loop (i + 1) (scene_clips_from (i + 1) rest)
              (acc ++ [Clip.scene i s.duration]) calls := by
        simp only [scene_clips_from, apply_transitions_loop]
        rw [if_neg (by omega), if_neg (by simp [ht])]
      have hacc1 : clipsIndices (acc ++ [Clip.scene i s.duration])
          = List.range (i + 1) := by
        rw [clipsIndices_append, clipsIndices_singleton, hacc]
        simp [Clip.sceneIndices, List.range_succ]
      obtain ⟨h1, h2, h3, h4⟩ := ih (i + 1) (acc ++ [Clip.scene i s.duration])
        calls (by omega) hacc1
      rw [hstep]
      refine ⟨by simpa [Nat.add_assoc, Nat.add_comm, Nat.add_left_comm] using h1,
        h2, ?_, ?_⟩
      · intro c hc
        rcases h3 c hc with hl | ⟨k, s', prev', hk, hkt, hceq, hbound⟩
        · exact Or.inl hl
        · refine Or.inr ⟨k + 1, s', prev', ?_, hkt, ?_, ?_⟩
          · simpa using hk
          · have : i + 1 + k = i + (k + 1) := by omega
            rw [← this]; exact hceq
          · intro m hm
            have := hbound m hm
            omega
      · intro k s' hk hkt
        cases k with
        | zero =>
          simp at hk
          rw [← hk] at hkt
          exact absurd ht hkt
        | succ k' =>
          rw [List.get?_cons_succ] at hk
          obtain ⟨prev', hmem, hbound⟩ := h4 k' s' hk hkt
          refine ⟨prev', ?_, ?_⟩
          · have : i + 1 + k' = i + (k' + 1) := by omega
            rw [← this]; exact hmem
          · intro m hm
            have := hbound m hm
            omega
    · -- non-NONE: the tail is replaced by the transitioned clip, one call
      have hstep : apply_transitions_loop i
          (scene_clips_from i (s :: rest)) acc calls
          = apply_transitions_loop (i + 1) (scene_clips_from (i + 1) rest)
              (acc.dropLast ++ [apply_transition prev
                (Clip.scene i s.duration) s.transition (1 / 2)])
              (calls ++ [(prev, Clip.scene i s.duration, s.transition)]) := by
        simp only [scene_clips_from, apply_transitions_loop]
        rw [if_neg (by omega), if_pos (by simp [ht]), hprev]
      have hacc1 : clipsIndices (acc.dropLast ++ [apply_transition prev
          (Clip.scene i s.duration) s.transition (1 / 2)])
          = List.range (i + 1) := by
        rw [clipsIndices_append, clipsIndices_singleton,
          apply_transition_sceneIndices]
        have : clipsIndices acc.dropLast ++ (prev.sceneIndices
            ++ (Clip.scene i s.duration).sceneIndices)
            = (clipsIndices acc.dropLast ++ prev.sceneIndices)
              ++ (Clip.scene i s.duration).sceneIndices := by
          rw [List.append_assoc]
        rw [this, ← clipsIndices_singleton prev, ← clipsIndices_append, hsplit,
          hacc]
        simp [Clip.sceneIndices, List.range_succ]
      obtain ⟨h1, h2, h3, h4⟩ := ih (i + 1)
        (acc.dropLast ++ [apply_transition prev
          (Clip.scene i s.duration) s.transition (1 / 2)])
        (calls ++ [(prev, Clip.scene i s.duration, s.transition)])
        (by omega) hacc1
      rw [hstep]
      refine ⟨by simpa [Nat.add_assoc, Nat.add_comm, Nat.add_left_comm] using h1,
        ?_, ?_, ?_⟩
      · intro c hc
        exact h2 c (List.mem_append_left _ hc)
      · intro c hc
        rcases h3 c hc with hl | ⟨k, s', prev', hk, hkt, hceq, hbound⟩
        · rcases List.mem_append.mp hl with hcl | hcnew
          · exact Or.inl hcl
          · have hcnew' : c = (prev, Clip.scene i s.duration, s.transition) := by
              simpa using hcnew
            refine Or.inr ⟨0, s, prev, by simp, ht, ?_, ?_⟩
            · simpa using hcnew'
            · intro m hm
              have := hprevmem m hm
              omega
        · refine Or.inr ⟨k + 1, s', prev', ?_, hkt, ?_, ?_⟩
          · simpa using hk
          · have : i + 1 + k = i + (k + 1) := by omega
            rw [← this]; exact hceq
          · intro m hm
            have := hbound m hm
            omega
      · intro k s' hk hkt
        cases k with
        | zero =>
          simp at hk
          refine ⟨prev, ?_, ?_⟩
          · rw [← hk]
            have : i + 0 = i := by omega
            rw [this]
            exact h2 _ (List.mem_append_right _ (by simp))
          · intro m hm
            have := hprevmem m hm
            omega
        | succ k' =>
          rw [List.get?_cons_succ] at hk
          obtain ⟨prev', hmem, hbound⟩ := h4 k' s' hk hkt
          refine ⟨prev', ?_, ?_⟩
          · have : i + 1 + k' = i + (k' + 1) := by omega
            rw [← this]; exact hmem
          · intro m hm
            have := hbound m hm
            omega

/-- The Compositor calls recorded by the transition fold over the
materialized scene clips of `specs`. -/
def fold_transition_calls (specs : List SceneSpec) :
    List (Clip × Clip × TransitionType) :=
  (apply_transitions_loop 0 (scene_clips_from 0 specs) [] []).2

/-- C8: the pipeline folds the materialized `(clip, transition)` list
left-to-right.  Every Compositor call made by the fold joins some scene
`k ≥ 1` — appearing as the second argument, with that scene's own
transition — onto a first argument built solely from scenes with smaller
indices (the current accumulator tail); conversely every scene `k ≥ 1`
whose transition is not `NONE` produces exactly such a call.  A scene's
transition is therefore never applied between its clip and the following
scene's clip.  The third part ties the fold to the pipeline itself. -/
theorem C8_transitions_bind_backward (specs : List SceneSpec) :
    (∀ c ∈ fold_transition_calls specs,
      ∃ k s prev, specs.get? k = some s ∧ 1 ≤ k ∧
        s.transition ≠ TransitionType.NONE ∧
        c = (prev, Clip.scene k s.duration, s.transition) ∧
        ∀ m ∈ prev.sceneIndices, m < k) ∧
    (∀ k s, specs.get? k = some s → 1 ≤ k →
      s.transition ≠ TransitionType.NONE →
      ∃ prev, (prev, Clip.scene k s.duration, s.transition)
          ∈ fold_transition_calls specs ∧
        ∀ m ∈ prev.sceneIndices, m < k) ∧
    (∀ output_path : String, (∀ s ∈ specs, s.materialize_ok = true) →
      (compose_video specs true output_path).transition_calls
        = fold_transition_calls specs) := by
  have hlink : ∀ output_path : String, (∀ s ∈ specs, s.materialize_ok = true) →
      (compose_video specs true output_path).transition_calls
        = fold_transition_calls specs := by
    intro output_path hok
    rw [compose_video_ok_spec specs output_path hok]
    rfl
  cases specs with
  | nil =>
    refine ⟨?_, ?_, hlink⟩
    · intro c hc
      simp [fold_transition_calls, scene_clips_from, apply_transitions_loop] at hc
    · intro k s hk
      simp [List.get?] at hk
  | cons s0 rest =>
    have hstep0 : apply_transitions_loop 0 (scene_clips_from 0 (s0 :: rest)) [] []
        = apply_transitions_loop 1 (scene_clips_from 1 rest)
            [Clip.scene 0 s0.duration] [] := by
      simp only [scene_clips_from, apply_transitions_loop]
      rw [if_pos trivial]
      rfl
    have hacc0 : clipsIndices [Clip.scene 0 s0.duration] = List.range 1 := by
      simp [clipsIndices, Clip.sceneIndices, List.range_succ]
    obtain ⟨_, _, h3, h4⟩ := apply_transitions_loop_invariant rest 1
      [Clip.scene 0 s0.duration] [] le_rfl hacc0
    refine ⟨?_, ?_, hlink⟩
    · intro c hc
      rw [fold_transition_calls, hstep0] at hc
      rcases h3 c hc with hl | ⟨k, s', prev', hk, hkt, hceq, hbound⟩
      · exact absurd hl (List.not_mem_nil c)
      · refine ⟨k + 1, s', prev', by simpa using hk, by omega, hkt, ?_, ?_⟩
        · have : 1 + k = k + 1 := by omega
          rw [← this]; exact hceq
        · intro m hm
          have := hbound m hm
          omega
    · intro k s' hk hone hkt
      cases k with
      | zero => omega
      | succ k' =>
        rw [List.get?_cons_succ] at hk
        obtain ⟨prev', hmem, hbound⟩ := h4 k' s' hk hkt
        refine ⟨prev', ?_, ?_⟩
        · rw [fold_transition_calls, hstep0]
          have : 1 + k' = k' + 1 := by omega
          rw [← this]; exact hmem
        · intro m hm
          have := hbound m hm
          omega

/-- Witness for `C8_transitions_bind_backward`: three scenes where the
middle one crossfades; the fold records exactly the call joining scene 1
onto scene 0's clip. -/
theorem C8_transitions_bind_backward_witness :
    ((Clip.scene 0 2, Clip.scene 1 3, TransitionType.CROSSFADE)
        ∈ fold_transition_calls
          [SceneSpec.mk "A" 2 TransitionType.NONE true,
           SceneSpec.mk "B" 3 TransitionType.CROSSFADE true,
           SceneSpec.mk "C" 4 TransitionType.NONE true] ∧
      (∃ k s prev,
        ([SceneSpec.mk "A" 2 TransitionType.NONE true,
          SceneSpec.mk "B" 3 TransitionType.CROSSFADE true,
          SceneSpec.mk "C" 4 TransitionType.NONE true].get? k = some s ∧ 1 ≤ k ∧
          s.transition ≠ TransitionType.NONE ∧
          (Clip.scene 0 2, Clip.scene 1 3, TransitionType.CROSSFADE)
            = (prev, Clip.scene k s.duration, s.transition) ∧
          ∀ m ∈ prev.sceneIndices, m < k))) ∧
    (∀ s ∈ [SceneSpec.mk "A" 2 TransitionType.NONE true,
        SceneSpec.mk "B" 3 TransitionType.CROSSFADE true,
        SceneSpec.mk "C" 4 TransitionType.NONE true], s.materialize_ok = true) ∧
    (compose_video
        [SceneSpec.mk "A" 2 TransitionType.NONE true,
         SceneSpec.mk "B" 3 TransitionType.CROSSFADE true,
         SceneSpec.mk "C" 4 TransitionType.NONE true] true "out.mp4").transition_calls
      = fold_transition_calls
          [SceneSpec.mk "A" 2 TransitionType.NONE true,
           SceneSpec.mk "B" 3 TransitionType.CROSSFADE true,
           SceneSpec.mk "C" 4 TransitionType.NONE true] :=
  ⟨⟨by decide,
    (C8_transitions_bind_backward
      [SceneSpec.mk "A" 2 TransitionType.NONE true,
       SceneSpec.mk "B" 3 TransitionType.CROSSFADE true,
       SceneSpec.mk "C" 4 TransitionType.NONE true]).1
      (Clip.scene 0 2, Clip.scene 1 3, TransitionType.CROSSFADE) (by decide)⟩,
   by decide,
   (C8_transitions_bind_backward
     [SceneSpec.mk "A" 2 TransitionType.NONE true,
      SceneSpec.mk "B" 3 TransitionType.CROSSFADE true,
      SceneSpec.mk "C" 4 TransitionType.NONE true]).2.2 "out.mp4" (by decide)⟩

end VideoComp
